import Mathlib

/-!
Shallow embedding of `idaes/core/util/model_statistics.py`.

A Pyomo model is embedded as a tree of blocks.  Each component (variable,
constraint, objective, grey-box block, block) carries a numeric identity
field mirroring Python object identity: two occurrences of the same
structure value represent two references (aliases) to one Python object,
while distinct Python objects always receive distinct ids.  Identity-keyed
`ComponentSet`s therefore become `Finset`s over the component structures.

Numeric values (variable values, bounds, evaluated constraint bodies)
are rationals; a failed numeric evaluation (missing value, type error)
is `none`.
-/

namespace ModelStatistics

/-- Embeds a Pyomo `Var` data object: identity, `fixed` flag, optional
current value and optional lower/upper bounds. -/
structure Var where
  vid : Nat
  fixed : Bool
  val : Option ℚ
  lb : Option ℚ
  ub : Option ℚ
deriving DecidableEq, Repr

/-- Embeds a Pyomo `Constraint` data object: identity, `active` flag,
optional evaluated lower/upper bounds, the list of variables returned by
`identify_variables(c.body)`, and the result of evaluating `c.body()`
(`none` when evaluation raises). -/
structure Constr where
  cid : Nat
  active : Bool
  lower : Option ℚ
  upper : Option ℚ
  bodyVars : List Var
  bodyVal : Option ℚ
deriving DecidableEq, Repr

/-- Embeds an `ExternalGreyBoxBlock`: identity, `active` flag, the
name-keyed `inputs` / `outputs` variable maps (embedded as lists of their
values), and `get_external_model().n_equality_constraints()`. -/
structure GreyBox where
  gid : Nat
  active : Bool
  inputs : List Var
  outputs : List Var
  nEqCons : Nat
deriving DecidableEq, Repr

/-- Embeds a Pyomo `Objective` data object: identity and `active` flag. -/
structure Objective where
  oid : Nat
  active : Bool
deriving DecidableEq, Repr

/-- Local component lists of one block: its identity, `active` flag and
the components declared directly on it. -/
structure BlockData where
  bid : Nat
  active : Bool
  vars : List Var
  constrs : List Constr
  objs : List Objective
  greyboxes : List GreyBox
deriving DecidableEq, Repr

/-- A Pyomo block: local data plus declared sub-blocks. -/
inductive Block where
  | node : BlockData → List Block → Block

mutual

/-- Decidable equality on blocks (identity-keyed sets need it). -/
def decEqBlock : (a b : Block) → Decidable (a = b)
  | .node d s, .node e t =>
      if hd : d = e then
        match decEqBlockList s t with
        | isTrue hs => isTrue (by rw [hd, hs])
        | isFalse hs => isFalse (by intro h; injection h; contradiction)
      else isFalse (by intro h; injection h; contradiction)

/-- Decidable equality on lists of blocks. -/
def decEqBlockList : (a b : List Block) → Decidable (a = b)
  | [], [] => isTrue rfl
  | [], _ :: _ => isFalse (by intro h; exact List.noConfusion h)
  | _ :: _, [] => isFalse (by intro h; exact List.noConfusion h)
  | a :: as, b :: bs =>
      match decEqBlock a b, decEqBlockList as bs with
      | isTrue h1, isTrue h2 => isTrue (by rw [h1, h2])
      | isFalse h1, _ => isFalse (by intro h; injection h; contradiction)
      | isTrue _, isFalse h2 => isFalse (by intro h; injection h; contradiction)

end

instance : DecidableEq Block := decEqBlock

/-- Local data of a block. -/
def Block.data : Block → BlockData
  | .node d _ => d

/-- Declared sub-blocks of a block. -/
def Block.subs : Block → List Block
  | .node _ s => s

/-- The block's own `active` flag. -/
def Block.active (b : Block) : Bool := b.data.active

mutual

/-- Embeds `component_data_objects(ctype=Block, active=None,
descend_into=True)` on a block: every descendant sub-block, regardless of
activation state (the block itself is not yielded). -/
def allBlocksUnder : Block → List Block
  | .node _ subs => allBlocksUnderList subs

/-- List version of `allBlocksUnder`. -/
def allBlocksUnderList : List Block → List Block
  | [] => []
  | s :: rest => s :: (allBlocksUnder s ++ allBlocksUnderList rest)

end

mutual

/-- Embeds `component_data_objects(ctype=Block, active=True,
descend_into=True)` on a block: descendant sub-blocks reachable through a
chain of active blocks, each itself active (the block itself is not
yielded and its own flag is not consulted). -/
def activeBlocksUnder : Block → List Block
  | .node _ subs => activeBlocksUnderList subs

/-- List version of `activeBlocksUnder`. -/
def activeBlocksUnderList : List Block → List Block
  | [] => []
  | s :: rest =>
      if s.active then s :: (activeBlocksUnder s ++ activeBlocksUnderList rest)
      else activeBlocksUnderList rest

end

mutual

/-- Component stream over the root and its activated descendant blocks:
applies the local extractor `f` to the root's data (regardless of the
root's own flag) and then to every block of `activeBlocksUnder`.  With
`f` = unfiltered local components this is
`activated_block_component_generator(block, ctype)`; with `f` filtered by
the component's `active` flag it is
`component_data_objects(ctype, active=True, descend_into=True)`. -/
def overActiveFamily (f : BlockData → List α) : Block → List α
  | .node d subs => f d ++ overActiveFamilyList f subs

/-- List version of `overActiveFamily`: skips inactive sub-blocks. -/
def overActiveFamilyList (f : BlockData → List α) : List Block → List α
  | [] => []
  | s :: rest =>
      (if s.active then overActiveFamily f s else []) ++ overActiveFamilyList f rest

end

/-- Embeds `component_data_objects(ctype=Constraint, active=True,
descend_into=True)`: active constraints of the root and of every
activated descendant block. -/
def cdoConstrsActive (b : Block) : List Constr :=
  overActiveFamily (fun d => d.constrs.filter (fun c => c.active)) b

/-- Embeds `component_data_objects(ctype=Var, active=True,
descend_into=True)`: variables of the root and of every activated
descendant block (Pyomo `Var` objects are always active). -/
def cdoVarsActive (b : Block) : List Var :=
  overActiveFamily (fun d => d.vars) b

/-- Embeds `activated_block_component_generator(block, ctype=Constraint)`:
local constraints of the root (any activation state) plus local
constraints of every activated descendant block. -/
def abcgConstrs (b : Block) : List Constr :=
  overActiveFamily (fun d => d.constrs) b

/-- Embeds `activated_block_component_generator(block, ctype=Objective)`. -/
def abcgObjs (b : Block) : List Objective :=
  overActiveFamily (fun d => d.objs) b

/-- Embeds `activated_block_component_generator(block,
ctype=ExternalGreyBoxBlock)`. -/
def abcgGreyboxes (b : Block) : List GreyBox :=
  overActiveFamily (fun d => d.greyboxes) b

/-- Embeds `total_blocks_set`: all-mode block walk plus the root itself. -/
def total_blocks_set (b : Block) : Finset Block :=
  insert b (allBlocksUnder b).toFinset

/-- Embeds `number_total_blocks`: raw count of the all-mode block walk,
plus one for the root. -/
def number_total_blocks (b : Block) : Nat :=
  (allBlocksUnder b).length + 1

/-- Embeds `activated_blocks_set`: if the root is active, the root plus
the activated-mode block walk; empty otherwise. -/
def activated_blocks_set (b : Block) : Finset Block :=
  if b.active then insert b (activeBlocksUnder b).toFinset else ∅

/-- Embeds `number_activated_blocks`. -/
def number_activated_blocks (b : Block) : Nat :=
  if b.active then 1 + (activeBlocksUnder b).length else 0

/-- Embeds `deactivated_blocks_set`: total minus activated. -/
def deactivated_blocks_set (b : Block) : Finset Block :=
  total_blocks_set b \ activated_blocks_set b

/-- Embeds `greybox_block_set`: `ComponentSet` of the grey-box stream. -/
def greybox_block_set (b : Block) : Finset GreyBox :=
  (abcgGreyboxes b).toFinset

/-- Embeds `activated_greybox_block_set`: members of `greybox_block_set`
whose own `active` flag is set. -/
def activated_greybox_block_set (b : Block) : Finset GreyBox :=
  (greybox_block_set b).filter (fun g => g.active = true)

/-- Embeds `deactivated_greybox_block_set`: total minus activated. -/
def deactivated_greybox_block_set (b : Block) : Finset GreyBox :=
  greybox_block_set b \ activated_greybox_block_set b

/-- Embeds `number_activated_greybox_equalities`: every activated
grey-box block contributes `len(outputs) + n_equality_constraints()`. -/
def number_activated_greybox_equalities (b : Block) : Nat :=
  Finset.sum (activated_greybox_block_set b)
    (fun g => g.outputs.length + g.nEqCons)

/-- Embeds `total_constraints_set`: `ComponentSet` of the
`activated_block_component_generator` constraint stream. -/
def total_constraints_set (b : Block) : Finset Constr :=
  (abcgConstrs b).toFinset

/-- Embeds `number_total_constraints`: raw count of the constraint stream
plus the activated grey-box equality contribution. -/
def number_total_constraints (b : Block) : Nat :=
  (abcgConstrs b).length + number_activated_greybox_equalities b

/-- Embeds `activated_constraints_generator`: the constraint stream
filtered by the constraint's own `active` flag. -/
def activated_constraints_generator (b : Block) : List Constr :=
  (abcgConstrs b).filter (fun c => c.active)

/-- Embeds `activated_constraints_set`. -/
def activated_constraints_set (b : Block) : Finset Constr :=
  (activated_constraints_generator b).toFinset

/-- Embeds `number_activated_constraints`: raw count of the generator. -/
def number_activated_constraints (b : Block) : Nat :=
  (activated_constraints_generator b).length

/-- Embeds `deactivated_constraints_generator`. -/
def deactivated_constraints_generator (b : Block) : List Constr :=
  (abcgConstrs b).filter (fun c => !c.active)

/-- Embeds `deactivated_constraints_set`. -/
def deactivated_constraints_set (b : Block) : Finset Constr :=
  (deactivated_constraints_generator b).toFinset

/-- Shared equality classification of the source generators
(`c.upper is not None and c.lower is not None and c.upper == c.lower`;
the activated variant compares `value(c.upper) == value(c.lower)`, which
coincides on the evaluated bounds of the embedding). -/
def equalityTest (c : Constr) : Bool :=
  c.upper.isSome && c.lower.isSome && decide (c.upper = c.lower)

/-- Shared inequality classification of the source generators
(`c.upper is None or c.lower is None`). -/
def inequalityTest (c : Constr) : Bool :=
  c.upper.isNone || c.lower.isNone

/-- Embeds `total_equalities_generator`. -/
def total_equalities_generator (b : Block) : List Constr :=
  (abcgConstrs b).filter equalityTest

/-- Embeds `total_equalities_set`. -/
def total_equalities_set (b : Block) : Finset Constr :=
  (total_equalities_generator b).toFinset

/-- Embeds `number_total_equalities`: raw generator count plus activated
grey-box equalities. -/
def number_total_equalities (b : Block) : Nat :=
  (total_equalities_generator b).length + number_activated_greybox_equalities b

/-- Embeds `activated_equalities_generator`: equality test over the
`active=True` constraint walk. -/
def activated_equalities_generator (b : Block) : List Constr :=
  (cdoConstrsActive b).filter equalityTest

/-- Embeds `activated_equalities_set`. -/
def activated_equalities_set (b : Block) : Finset Constr :=
  (activated_equalities_generator b).toFinset

/-- Embeds `number_activated_equalities`: raw generator count plus
activated grey-box equalities. -/
def number_activated_equalities (b : Block) : Nat :=
  (activated_equalities_generator b).length + number_activated_greybox_equalities b

/-- Embeds `deactivated_equalities_generator`: inactive members of the
total equalities generator. -/
def deactivated_equalities_generator (b : Block) : List Constr :=
  (total_equalities_generator b).filter (fun c => !c.active)

/-- Embeds `deactivated_equalities_set`. -/
def deactivated_equalities_set (b : Block) : Finset Constr :=
  (deactivated_equalities_generator b).toFinset

/-- Embeds `total_inequalities_generator`. -/
def total_inequalities_generator (b : Block) : List Constr :=
  (abcgConstrs b).filter inequalityTest

/-- Embeds `total_inequalities_set`. -/
def total_inequalities_set (b : Block) : Finset Constr :=
  (total_inequalities_generator b).toFinset

/-- Embeds `number_total_inequalities`: raw generator count (no grey-box
term). -/
def number_total_inequalities (b : Block) : Nat :=
  (total_inequalities_generator b).length

/-- Embeds `activated_inequalities_generator`. -/
def activated_inequalities_generator (b : Block) : List Constr :=
  (cdoConstrsActive b).filter inequalityTest

/-- Embeds `activated_inequalities_set`. -/
def activated_inequalities_set (b : Block) : Finset Constr :=
  (activated_inequalities_generator b).toFinset

/-- Embeds `number_activated_inequalities`: raw generator count. -/
def number_activated_inequalities (b : Block) : Nat :=
  (activated_inequalities_generator b).length

/-- Embeds `deactivated_inequalities_generator`. -/
def deactivated_inequalities_generator (b : Block) : List Constr :=
  (total_inequalities_generator b).filter (fun c => !c.active)

/-- Embeds `deactivated_inequalities_set`. -/
def deactivated_inequalities_set (b : Block) : Finset Constr :=
  (deactivated_inequalities_generator b).toFinset

/-- Embeds `total_objectives_generator`. -/
def total_objectives_generator (b : Block) : List Objective :=
  abcgObjs b

/-- Embeds `total_objectives_set`. -/
def total_objectives_set (b : Block) : Finset Objective :=
  (total_objectives_generator b).toFinset

/-- Embeds `activated_objectives_set`. -/
def activated_objectives_set (b : Block) : Finset Objective :=
  ((abcgObjs b).filter (fun o => o.active)).toFinset

/-- Embeds `deactivated_objectives_set`. -/
def deactivated_objectives_set (b : Block) : Finset Objective :=
  ((abcgObjs b).filter (fun o => !o.active)).toFinset

/-- Embeds `greybox_variables`: every input and output variable of every
activated grey-box block. -/
def greybox_variables (b : Block) : Finset Var :=
  Finset.biUnion (activated_greybox_block_set b)
    (fun g => (g.inputs ++ g.outputs).toFinset)

/-- Embeds `variables_set`: the `active=True` variable walk plus the
grey-box variables. -/
def variables_set (b : Block) : Finset Var :=
  (cdoVarsActive b).toFinset ∪ greybox_variables b

/-- Embeds `number_variables`. -/
def number_variables (b : Block) : Nat :=
  (variables_set b).card

/-- Embeds `fixed_variables_set`: fixed members of the variable walk plus
fixed grey-box variables (the generator yields both groups). -/
def fixed_variables_set (b : Block) : Finset Var :=
  ((cdoVarsActive b).filter (fun v => v.fixed)).toFinset
    ∪ (greybox_variables b).filter (fun v => v.fixed = true)

/-- Embeds `unfixed_variables_set`: unfixed members of the variable walk
only — the source generator has no grey-box clause. -/
def unfixed_variables_set (b : Block) : Finset Var :=
  ((cdoVarsActive b).filter (fun v => !v.fixed)).toFinset

/-- Embeds `variables_in_activated_constraints_set`: variables identified
in the bodies of the `active=True` constraint walk, plus all grey-box
variables. -/
def variables_in_activated_constraints_set (b : Block) : Finset Var :=
  ((cdoConstrsActive b).flatMap (fun c => c.bodyVars)).toFinset
    ∪ greybox_variables b

/-- Embeds `variables_in_activated_equalities_set`: variables identified
in the bodies of the activated equalities, plus all grey-box variables. -/
def variables_in_activated_equalities_set (b : Block) : Finset Var :=
  ((activated_equalities_generator b).flatMap (fun c => c.bodyVars)).toFinset
    ∪ greybox_variables b

/-- Embeds `unfixed_variables_in_activated_equalities_set`. -/
def unfixed_variables_in_activated_equalities_set (b : Block) : Finset Var :=
  (variables_in_activated_equalities_set b).filter (fun v => v.fixed = false)

/-- Embeds `number_unfixed_variables_in_activated_equalities`. -/
def number_unfixed_variables_in_activated_equalities (b : Block) : Nat :=
  (unfixed_variables_in_activated_equalities_set b).card

/-- Embeds `degrees_of_freedom`: integer subtraction, no clamping. -/
def degrees_of_freedom (b : Block) : ℤ :=
  (number_unfixed_variables_in_activated_equalities b : ℤ)
    - (number_activated_equalities b : ℤ)

/-- Magnitude computed by `variables_near_bounds_generator`: `ub - lb`
when both bounds exist, else the absolute value of the single bound,
else `0`. -/
def nearBoundsMag (v : Var) : ℚ :=
  match v.ub, v.lb with
  | some u, some l => u - l
  | some u, none => |u|
  | none, some l => |l|
  | none, none => 0

/-- Membership test of `variables_near_bounds_generator`: a variable with
no value is skipped; otherwise the effective tolerance is
`max(abs_tol, mag * rel_tol)` and the variable is yielded when the
`if`/`elif` chain over the non-skipped bounds fires (the chain yields in
either branch, so it is the disjunction of the two bound conditions). -/
def nearBoundTest (skipLb skipUb : Bool) (absTol relTol : ℚ) (v : Var) : Bool :=
  match v.val with
  | none => false
  | some x =>
      let tol := max absTol (nearBoundsMag v * relTol)
      if (match v.ub with
          | some u => !skipUb && decide (u - x ≤ tol)
          | none => false) then true
      else
        (match v.lb with
         | some l => !skipLb && decide (x - l ≤ tol)
         | none => false)

/-- Embeds `variables_near_bounds_set` (with the non-deprecated
`abs_tol`/`rel_tol` parameters). -/
def variables_near_bounds_set (b : Block) (skipLb skipUb : Bool)
    (absTol relTol : ℚ) : Finset Var :=
  ((cdoVarsActive b).filter (nearBoundTest skipLb skipUb absTol relTol)).toFinset

/-- The `try` block of `large_residuals_set`: `none` models a raised
exception.  `r` starts at `0`; a missing bound contributes `0` without
evaluating the body, a present bound evaluates `lower - body()` resp.
`body() - upper` (raising when the body is unevaluable) and the running
maximum is kept. -/
def tryResidual (c : Constr) : Option ℚ := do
  let r0 : ℚ := 0
  let rt1 : ℚ ←
    match c.lower with
    | none => some 0
    | some l => c.bodyVal.map (fun bv => l - bv)
  let r1 := if rt1 > r0 then rt1 else r0
  let rt2 : ℚ ←
    match c.upper with
    | none => some 0
    | some u => c.bodyVal.map (fun bv => bv - u)
  some (if rt2 > r1 then rt2 else r1)

/-- Embeds `large_residuals_set` with `return_residual_values=False`:
a constraint is included when its residual exceeds `tol`, or
unconditionally when its evaluation raised (the `except` clause). -/
def large_residuals_set (b : Block) (tol : ℚ) : Finset Constr :=
  ((cdoConstrsActive b).filter (fun c =>
    match tryResidual c with
    | some r => decide (r > tol)
    | none => true)).toFinset

/-- Embeds `large_residuals_set` with `return_residual_values=True`:
the constraint-to-residual mapping, with `none` recorded for a
constraint whose evaluation raised. -/
def large_residuals_values (b : Block) (tol : ℚ) : List (Constr × Option ℚ) :=
  (cdoConstrsActive b).filterMap (fun c =>
    match tryResidual c with
    | some r => if r > tol then some (c, some r) else none
    | none => some (c, none))

/-- Embeds `number_large_residuals`.  The source has no `try`/`except`
here: `value(c.lower - c.body())` is evaluated first, so a missing bound
(`None` arithmetic) or an unevaluable body raises — modelled by `none`
propagating through the fold. -/
def number_large_residuals (b : Block) (tol : ℚ) : Option Nat :=
  (cdoConstrsActive b).foldlM (fun n c =>
    if c.active then
      match c.lower, c.bodyVal with
      | some l, some bv =>
          if l - bv > tol then some (n + 1)
          else
            match c.upper with
            | some u => if bv - u > tol then some (n + 1) else some n
            | none => none
      | _, _ => none
    else some n) 0

mutual

/-- Model transform used to express grey-box contributions: erase every
grey-box block while leaving all other structure untouched. -/
def dropGreyboxes : Block → Block
  | .node d subs => .node { d with greyboxes := [] } (dropGreyboxesList subs)

/-- List version of `dropGreyboxes`. -/
def dropGreyboxesList : List Block → List Block
  | [] => []
  | s :: rest => dropGreyboxes s :: dropGreyboxesList rest

end

/-- Modelled from the spec, for its classification rule: a constraint is
an equality iff both bounds are present and their evaluated numeric
values are equal. -/
def specIsEquality (c : Constr) : Bool :=
  match c.lower, c.upper with
  | some l, some u => decide (l = u)
  | _, _ => false

/-- Modelled from the spec, for its classification rule: a constraint is
an inequality iff at least one bound is absent. -/
def specIsInequality (c : Constr) : Bool :=
  match c.lower, c.upper with
  | none, _ => true
  | _, none => true
  | some _, some _ => false

/-- Modelled from the spec, for near-bound detection: the magnitude is
`(upper - lower)` if both bounds exist, else `|upper|` or `|lower|` if
only one exists, else `0`. -/
def specMagnitude (v : Var) : ℚ :=
  match v.ub, v.lb with
  | some u, some l => u - l
  | some u, none => |u|
  | none, some l => |l|
  | none, none => 0

/-- Modelled from the spec, for near-bound detection: a variable with no
value is excluded; otherwise it qualifies iff its distance to a present,
non-skipped upper bound is at most the effective tolerance
`max(abs_tol, magnitude * rel_tol)`, or its distance to a present,
non-skipped lower bound is. -/
def specNearBound (skipLb skipUb : Bool) (absTol relTol : ℚ) (v : Var) : Bool :=
  match v.val with
  | none => false
  | some x =>
      let tol := max absTol (specMagnitude v * relTol)
      (match v.ub with
       | some u => !skipUb && decide (u - x ≤ tol)
       | none => false)
      ||
      (match v.lb with
       | some l => !skipLb && decide (x - l ≤ tol)
       | none => false)

/-- Modelled from the claim on degrees of freedom, first term: the
unfixed variables appearing in activated equality constraints, grey-box
variables included. -/
def specUnfixedVarsInActEqualities (b : Block) : Finset Var :=
  (((cdoConstrsActive b).filter specIsEquality).flatMap
      (fun c => c.bodyVars)).toFinset.filter (fun v => v.fixed = false)
    ∪ (greybox_variables b).filter (fun v => v.fixed = false)

/-- Modelled from the claim on degrees of freedom, second term: the
count of activated equality constraints, each activated grey-box node
contributing `len(outputs) + n_equality_constraints()`. -/
def specActivatedEqualityCount (b : Block) : Nat :=
  ((cdoConstrsActive b).filter specIsEquality).length
    + Finset.sum (activated_greybox_block_set b)
        (fun g => g.outputs.length + g.nEqCons)

/-! Concrete models used to instantiate and refute claims. -/

/-- Unfixed variable for the positive-degrees-of-freedom model. -/
def vA : Var := ⟨10, false, none, none, none⟩

/-- Second unfixed variable for the positive-degrees-of-freedom model. -/
def vB : Var := ⟨11, false, none, none, none⟩

/-- Activated equality over `vA` and `vB`. -/
def cPos : Constr := ⟨12, true, some 0, some 0, [vA, vB], some 0⟩

/-- Model with one activated equality over two unfixed variables:
degrees of freedom `2 - 1 = 1`. -/
def mPosDof : Block := .node ⟨1, true, [vA, vB], [cPos], [], []⟩ []

/-- Activated equality with no variables in its body. -/
def cNeg : Constr := ⟨13, true, some 0, some 0, [], some 0⟩

/-- Model with one activated equality and no variables:
degrees of freedom `0 - 1 = -1`. -/
def mNegDof : Block := .node ⟨2, true, [], [cNeg], [], []⟩ []

/-- Degenerate constraint with neither bound. -/
def cNoBounds : Constr := ⟨30, true, none, none, [], some 0⟩

/-- Activated constraint whose body evaluation raises. -/
def cFail : Constr := ⟨40, true, some 0, some 0, [], none⟩

/-- Activated equality whose body evaluates cleanly to its bound. -/
def cOk : Constr := ⟨41, true, some 0, some 0, [], some 0⟩

/-- Model with one unevaluable and one evaluable activated constraint. -/
def mResid : Block := .node ⟨4, true, [], [cFail, cOk], [], []⟩ []

/-- Grey-box input variable for the grey-box scenario. -/
def vIn : Var := ⟨50, false, none, none, none⟩

/-- First grey-box output variable. -/
def vOut1 : Var := ⟨51, false, none, none, none⟩

/-- Second grey-box output variable. -/
def vOut2 : Var := ⟨52, false, none, none, none⟩

/-- Activated grey-box node with two outputs and three internal
equality constraints. -/
def gScenario : GreyBox := ⟨5, true, [vIn], [vOut1, vOut2], 3⟩

/-- Model holding the grey-box scenario node. -/
def mGreybox : Block := .node ⟨6, true, [], [], [], [gScenario]⟩ []

/-- Variable with bounds `[0, 10]` and value `9.9999`. -/
def vNear : Var := ⟨60, false, some ((99999 : ℚ) / 10000), some 0, some 10⟩

/-- Model holding the near-bound scenario variable. -/
def mNear : Block := .node ⟨7, true, [vNear], [], [], []⟩ []

/-- Activated inequality constraint used for the aliasing models. -/
def cAlias : Constr := ⟨70, true, none, some 1, [], some 0⟩

/-- Model whose constraint list holds two references to one constraint
(a Pyomo `Reference` makes the walk yield the same data object twice). -/
def mAlias : Block := .node ⟨8, true, [], [cAlias, cAlias], [], []⟩ []

/-- The aliasing model with the reference removed. -/
def mPlain : Block := .node ⟨9, true, [], [cAlias], [], []⟩ []

/-- Unfixed grey-box input variable. -/
def vGbUnfixed : Var := ⟨80, false, none, none, none⟩

/-- Activated grey-box node holding only `vGbUnfixed`. -/
def gUnfixed : GreyBox := ⟨10, true, [vGbUnfixed], [], 0⟩

/-- Model whose only variable is the unfixed grey-box input. -/
def mGbUnfixed : Block := .node ⟨11, true, [], [], [], [gUnfixed]⟩ []

/-- Grey-box input variable for the deactivation experiment. -/
def vGbFrame : Var := ⟨90, false, none, none, none⟩

/-- Model whose grey-box node (holding `vGbFrame`) is active. -/
def mGbActive : Block := .node ⟨12, true, [], [], [], [⟨13, true, [vGbFrame], [], 0⟩]⟩ []

/-- The same model with the grey-box node's `active` flag cleared. -/
def mGbInactive : Block := .node ⟨12, true, [], [], [], [⟨13, false, [vGbFrame], [], 0⟩]⟩ []

/-- Variable far above its upper bound. -/
def vViol : Var := ⟨100, false, some 100, none, some 5⟩

/-- Model holding the bound-violating variable. -/
def mViol : Block := .node ⟨14, true, [vViol], [], [], []⟩ []

/-! Helper lemmas about the traversal combinators. -/

mutual

/-- Filtering components locally commutes with the activated-family
walk. -/
theorem overActiveFamily_filter (f : BlockData → List α) (p : α → Bool) :
    ∀ b : Block, overActiveFamily (fun d => (f d).filter p) b
      = (overActiveFamily f b).filter p
  | .node d subs => by
      simp only [overActiveFamily, List.filter_append,
        overActiveFamilyList_filter f p subs]

/-- List version of `overActiveFamily_filter`. -/
theorem overActiveFamilyList_filter (f : BlockData → List α) (p : α → Bool) :
    ∀ l : List Block, overActiveFamilyList (fun d => (f d).filter p) l
      = (overActiveFamilyList f l).filter p
  | [] => by simp [overActiveFamilyList]
  | s :: rest => by
      simp only [overActiveFamilyList, List.filter_append,
        overActiveFamilyList_filter f p rest]
      by_cases hs : s.active
      · simp only [if_pos hs, overActiveFamily_filter f p s]
      · simp only [if_neg hs, List.filter_nil]

end

mutual

/-- Every block of the activated walk occurs in the total walk. -/
theorem mem_allBlocksUnder_of_active :
    ∀ b : Block, ∀ x ∈ activeBlocksUnder b, x ∈ allBlocksUnder b
  | .node d subs => by
      simpa only [activeBlocksUnder, allBlocksUnder] using
        mem_allBlocksUnderList_of_active subs

/-- List version of `mem_allBlocksUnder_of_active`. -/
theorem mem_allBlocksUnderList_of_active :
    ∀ l : List Block, ∀ x ∈ activeBlocksUnderList l, x ∈ allBlocksUnderList l
  | [] => by simp [activeBlocksUnderList, allBlocksUnderList]
  | s :: rest => by
      intro x hx
      simp only [allBlocksUnderList, List.mem_cons, List.mem_append]
      by_cases hs : s.active
      · rw [activeBlocksUnderList, if_pos hs] at hx
        rcases List.mem_cons.mp hx with h | h
        · exact Or.inl h
        · rcases List.mem_append.mp h with h | h
          · exact Or.inr (Or.inl (mem_allBlocksUnder_of_active s x h))
          · exact Or.inr (Or.inr (mem_allBlocksUnderList_of_active rest x h))
      · rw [activeBlocksUnderList, if_neg hs] at hx
        exact Or.inr (Or.inr (mem_allBlocksUnderList_of_active rest x hx))

end

/-- Splitting a stream by a predicate and its negation covers the
stream. -/
theorem filter_partition_union (l : List α) (p : α → Bool) [DecidableEq α] :
    (l.filter (fun a => !p a)).toFinset ∪ (l.filter p).toFinset
      = l.toFinset := by
  ext x
  simp only [Finset.mem_union, List.mem_toFinset, List.mem_filter,
    Bool.not_eq_true']
  rcases Bool.eq_false_or_eq_true (p x) with h | h
  · tauto
  · tauto

/-- Splitting a stream by a predicate and its negation is disjoint. -/
theorem filter_partition_inter (l : List α) (p : α → Bool) [DecidableEq α] :
    (l.filter (fun a => !p a)).toFinset ∩ (l.filter p).toFinset = ∅ := by
  ext x
  simp only [Finset.mem_inter, List.mem_toFinset, List.mem_filter,
    Bool.not_eq_true', Finset.not_mem_empty, iff_false, not_and]
  intro h
  simp [h.2]

/-- The `active=True` constraint walk is the
`activated_block_component_generator` stream filtered by the
constraint's own flag: both visit the same blocks. -/
theorem cdoConstrsActive_eq (b : Block) :
    cdoConstrsActive b = (abcgConstrs b).filter (fun c => c.active) :=
  overActiveFamily_filter (fun d => d.constrs) (fun c => c.active) b

/-- The activated block set is contained in the total block set. -/
theorem activated_blocks_subset (b : Block) :
    activated_blocks_set b ⊆ total_blocks_set b := by
  unfold activated_blocks_set total_blocks_set
  by_cases hb : b.active = true
  · simp only [hb, if_true]
    refine Finset.insert_subset_insert _ ?_
    intro x hx
    rw [List.mem_toFinset] at hx ⊢
    exact mem_allBlocksUnder_of_active b x hx
  · simp only [hb, if_false]
    exact Finset.empty_subset _

/-- Members of the deactivated equalities set are inactive. -/
theorem mem_deactivated_equalities_inactive (b : Block) (c : Constr)
    (h : c ∈ deactivated_equalities_set b) : c.active = false := by
  simp only [deactivated_equalities_set, deactivated_equalities_generator,
    List.mem_toFinset, List.mem_filter, Bool.not_eq_true'] at h
  exact h.2

/-- Members of the activated equalities set are active. -/
theorem mem_activated_equalities_active (b : Block) (c : Constr)
    (h : c ∈ activated_equalities_set b) : c.active = true := by
  simp only [activated_equalities_set, activated_equalities_generator,
    cdoConstrsActive_eq, List.mem_toFinset, List.mem_filter] at h
  exact h.1.2

/-- Members of the deactivated inequalities set are inactive. -/
theorem mem_deactivated_inequalities_inactive (b : Block) (c : Constr)
    (h : c ∈ deactivated_inequalities_set b) : c.active = false := by
  simp only [deactivated_inequalities_set, deactivated_inequalities_generator,
    List.mem_toFinset, List.mem_filter, Bool.not_eq_true'] at h
  exact h.2

/-- Members of the activated inequalities set are active. -/
theorem mem_activated_inequalities_active (b : Block) (c : Constr)
    (h : c ∈ activated_inequalities_set b) : c.active = true := by
  simp only [activated_inequalities_set, activated_inequalities_generator,
    cdoConstrsActive_eq, List.mem_toFinset, List.mem_filter] at h
  exact h.1.2

/-- C2: for every model and each kind X in blocks, constraints,
equalities, inequalities, objectives and grey-box blocks, the
deactivated-X set and the activated-X set are disjoint and their union
is the total-X set. -/
theorem c2_deactivated_activated_partition (b : Block) :
    (deactivated_blocks_set b ∪ activated_blocks_set b = total_blocks_set b
      ∧ deactivated_blocks_set b ∩ activated_blocks_set b = ∅)
    ∧ (deactivated_constraints_set b ∪ activated_constraints_set b
          = total_constraints_set b
      ∧ deactivated_constraints_set b ∩ activated_constraints_set b = ∅)
    ∧ (deactivated_equalities_set b ∪ activated_equalities_set b
          = total_equalities_set b
      ∧ deactivated_equalities_set b ∩ activated_equalities_set b = ∅)
    ∧ (deactivated_inequalities_set b ∪ activated_inequalities_set b
          = total_inequalities_set b
      ∧ deactivated_inequalities_set b ∩ activated_inequalities_set b = ∅)
    ∧ (deactivated_objectives_set b ∪ activated_objectives_set b
          = total_objectives_set b
      ∧ deactivated_objectives_set b ∩ activated_objectives_set b = ∅)
    ∧ (deactivated_greybox_block_set b ∪ activated_greybox_block_set b
          = greybox_block_set b
      ∧ deactivated_greybox_block_set b ∩ activated_greybox_block_set b = ∅) := by
  refine ⟨⟨?_, ?_⟩, ⟨?_, ?_⟩, ⟨?_, ?_⟩, ⟨?_, ?_⟩, ⟨?_, ?_⟩, ⟨?_, ?_⟩⟩
  · exact Finset.sdiff_union_of_subset (activated_blocks_subset b)
  · exact Finset.sdiff_inter_self _ _
  · ext c
    simp only [deactivated_constraints_set, activated_constraints_set,
      total_constraints_set, deactivated_constraints_generator,
      activated_constraints_generator, Finset.mem_union, List.mem_toFinset,
      List.mem_filter, Bool.not_eq_true']
    rcases Bool.eq_false_or_eq_true c.active with h | h <;> simp [h]
  · ext c
    simp only [deactivated_constraints_set, activated_constraints_set,
      deactivated_constraints_generator, activated_constraints_generator,
      Finset.mem_inter, List.mem_toFinset, List.mem_filter,
      Bool.not_eq_true', Finset.not_mem_empty, iff_false, not_and]
    intro h
    simp [h.2]
  · ext c
    simp only [deactivated_equalities_set, activated_equalities_set,
      total_equalities_set, deactivated_equalities_generator,
      activated_equalities_generator, total_equalities_generator,
      cdoConstrsActive_eq, Finset.mem_union, List.mem_toFinset,
      List.mem_filter, Bool.not_eq_true']
    rcases Bool.eq_false_or_eq_true c.active with h | h <;> simp [h]
  · ext c
    simp only [Finset.mem_inter, Finset.not_mem_empty, iff_false, not_and]
    intro h1 h2
    have e1 := mem_deactivated_equalities_inactive b c h1
    have e2 := mem_activated_equalities_active b c h2
    rw [e1] at e2
    exact Bool.false_ne_true e2
  · ext c
    simp only [deactivated_inequalities_set, activated_inequalities_set,
      total_inequalities_set, deactivated_inequalities_generator,
      activated_inequalities_generator, total_inequalities_generator,
      cdoConstrsActive_eq, Finset.mem_union, List.mem_toFinset,
      List.mem_filter, Bool.not_eq_true']
    rcases Bool.eq_false_or_eq_true c.active with h | h <;> simp [h]
  · ext c
    simp only [Finset.mem_inter, Finset.not_mem_empty, iff_false, not_and]
    intro h1 h2
    have e1 := mem_deactivated_inequalities_inactive b c h1
    have e2 := mem_activated_inequalities_active b c h2
    rw [e1] at e2
    exact Bool.false_ne_true e2
  · ext o
    simp only [deactivated_objectives_set, activated_objectives_set,
      total_objectives_set, total_objectives_generator, Finset.mem_union,
      List.mem_toFinset, List.mem_filter, Bool.not_eq_true']
    rcases Bool.eq_false_or_eq_true o.active with h | h <;> simp [h]
  · ext o
    simp only [deactivated_objectives_set, activated_objectives_set,
      Finset.mem_inter, List.mem_toFinset, List.mem_filter,
      Bool.not_eq_true', Finset.not_mem_empty, iff_false, not_and]
    intro h
    simp [h.2]
  · exact Finset.sdiff_union_of_subset (Finset.filter_subset _ _)
  · exact Finset.sdiff_inter_self _ _

/-- The source equality test agrees pointwise with the spec's
classification rule. -/
theorem equalityTest_eq_spec (c : Constr) :
    equalityTest c = specIsEquality c := by
  obtain ⟨i, a, lo, up, bv, bval⟩ := c
  rcases lo with _ | l <;> rcases up with _ | u <;>
    simp [equalityTest, specIsEquality, decide_eq_decide, eq_comm]

/-- The source inequality test agrees pointwise with the spec's
classification rule. -/
theorem inequalityTest_eq_spec (c : Constr) :
    inequalityTest c = specIsInequality c := by
  obtain ⟨i, a, lo, up, bv, bval⟩ := c
  rcases lo with _ | l <;> rcases up with _ | u <;>
    simp [inequalityTest, specIsInequality]

/-- Two list filters commute. -/
theorem filter_swap (l : List α) (p q : α → Bool) :
    (l.filter p).filter q = (l.filter q).filter p := by
  induction l with
  | nil => rfl
  | cons a t ih =>
      by_cases hp : p a <;> by_cases hq : q a <;>
        simp [hp, hq, ih, List.filter_cons]

/-- C3: every constraint is classified an equality iff both bounds are
present with equal evaluated values and an inequality iff a bound is
absent, identically by the total, activated and deactivated
equality/inequality generators on their respective streams; a
constraint with neither bound is an inequality and never an equality. -/
theorem c3_classification_rule :
    (∀ b : Block,
        total_equalities_generator b = (abcgConstrs b).filter specIsEquality
      ∧ activated_equalities_generator b
          = (cdoConstrsActive b).filter specIsEquality
      ∧ deactivated_equalities_generator b
          = ((abcgConstrs b).filter (fun c => !c.active)).filter specIsEquality
      ∧ total_inequalities_generator b = (abcgConstrs b).filter specIsInequality
      ∧ activated_inequalities_generator b
          = (cdoConstrsActive b).filter specIsInequality
      ∧ deactivated_inequalities_generator b
          = ((abcgConstrs b).filter (fun c => !c.active)).filter specIsInequality)
    ∧ (∀ c : Constr, c.lower = none → c.upper = none →
        specIsInequality c = true ∧ specIsEquality c = false) := by
  constructor
  · intro b
    refine ⟨?_, ?_, ?_, ?_, ?_, ?_⟩
    · exact List.filter_congr (fun a _ => equalityTest_eq_spec a)
    · exact List.filter_congr (fun a _ => equalityTest_eq_spec a)
    · show ((abcgConstrs b).filter equalityTest).filter (fun c => !c.active) = _
      rw [filter_swap]
      exact List.filter_congr (fun a _ => equalityTest_eq_spec a)
    · exact List.filter_congr (fun a _ => inequalityTest_eq_spec a)
    · exact List.filter_congr (fun a _ => inequalityTest_eq_spec a)
    · show ((abcgConstrs b).filter inequalityTest).filter (fun c => !c.active) = _
      rw [filter_swap]
      exact List.filter_congr (fun a _ => inequalityTest_eq_spec a)
  · intro c hl hu
    simp [specIsInequality, specIsEquality, hl, hu]

/-- Witness for C3: the no-bounds constraint is classified inequality
and not equality. -/
theorem c3_classification_rule_witness :
    specIsInequality cNoBounds = true ∧ specIsEquality cNoBounds = false :=
  c3_classification_rule.2 cNoBounds rfl rfl

/-- C1: degrees of freedom equals the count of unfixed variables in
activated equality constraints (grey-box variables included) minus the
count of activated equality constraints (each activated grey-box node
counting `len(outputs) + n_equality_constraints()`), with no clamping:
the value can be negative or positive. -/
theorem c1_degrees_of_freedom_formula :
    (∀ b : Block,
        degrees_of_freedom b
          = ((specUnfixedVarsInActEqualities b).card : ℤ)
              - (specActivatedEqualityCount b : ℤ))
    ∧ degrees_of_freedom mNegDof < 0
    ∧ 0 < degrees_of_freedom mPosDof := by
  refine ⟨?_, ?_, ?_⟩
  · intro b
    have hfilter : (cdoConstrsActive b).filter equalityTest
        = (cdoConstrsActive b).filter specIsEquality :=
      List.filter_congr (fun a _ => equalityTest_eq_spec a)
    have h1 : unfixed_variables_in_activated_equalities_set b
        = specUnfixedVarsInActEqualities b := by
      unfold unfixed_variables_in_activated_equalities_set
        variables_in_activated_equalities_set specUnfixedVarsInActEqualities
        activated_equalities_generator
      rw [hfilter, Finset.filter_union]
    simp [degrees_of_freedom,
      number_unfixed_variables_in_activated_equalities, h1,
      number_activated_equalities, specActivatedEqualityCount,
      number_activated_greybox_equalities, activated_equalities_generator,
      hfilter]
  · decide
  · decide

/-- Evaluation of the activated-family walk on a leaf block. -/
theorem overActiveFamily_leaf (f : BlockData → List α) (d : BlockData) :
    overActiveFamily f (.node d []) = f d := by
  simp [overActiveFamily, overActiveFamilyList]

/-- C4: on the model with an unevaluable activated constraint,
`large_residuals_set` recovers (the constraint is added, with a `none`
residual in value mode, and the evaluable constraint is still
processed), but the counting variant `number_large_residuals` — which
the claim also covers — propagates the evaluation failure instead of
completing. -/
theorem c4_number_large_residuals_crash :
    large_residuals_set mResid (1 / 100000) = {cFail}
    ∧ large_residuals_values mResid (1 / 100000) = [(cFail, none)]
    ∧ number_large_residuals mResid (1 / 100000) = none := by
  have hstream : cdoConstrsActive mResid = [cFail, cOk] := by
    unfold mResid cdoConstrsActive
    rw [overActiveFamily_leaf]
    simp [cFail, cOk]
  refine ⟨?_, ?_, ?_⟩
  · unfold large_residuals_set
    rw [hstream]
    norm_num [List.filter, tryResidual, cFail, cOk, Option.bind]
  · unfold large_residuals_values
    rw [hstream]
    norm_num [List.filterMap, tryResidual, cFail, cOk, Option.bind]
  · unfold number_large_residuals
    rw [hstream]
    norm_num [List.foldlM, cFail, cOk, Option.bind]

mutual

/-- Erasing grey-boxes leaves any activated-family component stream
unchanged, provided the extractor ignores the grey-box list. -/
theorem overActiveFamily_dropGreyboxes (f : BlockData → List α)
    (hf : ∀ d : BlockData, f { d with greyboxes := [] } = f d) :
    ∀ b : Block, overActiveFamily f (dropGreyboxes b) = overActiveFamily f b
  | .node d subs => by
      simp only [dropGreyboxes, overActiveFamily, hf d,
        overActiveFamilyList_dropGreyboxes f hf subs]

/-- List version of `overActiveFamily_dropGreyboxes`. -/
theorem overActiveFamilyList_dropGreyboxes (f : BlockData → List α)
    (hf : ∀ d : BlockData, f { d with greyboxes := [] } = f d) :
    ∀ l : List Block,
      overActiveFamilyList f (dropGreyboxesList l) = overActiveFamilyList f l
  | [] => rfl
  | s :: rest => by
      have hact : (dropGreyboxes s).active = s.active := by
        cases s with
        | node d t => rfl
      simp only [dropGreyboxesList, overActiveFamilyList, hact,
        overActiveFamilyList_dropGreyboxes f hf rest]
      by_cases hs : s.active = true
      · rw [if_pos hs, if_pos hs, overActiveFamily_dropGreyboxes f hf s]
      · rw [if_neg hs, if_neg hs]

end

mutual

/-- After erasing grey-boxes, the grey-box stream is empty. -/
theorem abcgGreyboxes_dropGreyboxes :
    ∀ b : Block,
      overActiveFamily (fun d => d.greyboxes) (dropGreyboxes b) = []
  | .node d subs => by
      simp only [dropGreyboxes, overActiveFamily,
        abcgGreyboxesList_dropGreyboxes subs, List.append_nil]

/-- List version of `abcgGreyboxes_dropGreyboxes`. -/
theorem abcgGreyboxesList_dropGreyboxes :
    ∀ l : List Block,
      overActiveFamilyList (fun d => d.greyboxes) (dropGreyboxesList l) = []
  | [] => rfl
  | s :: rest => by
      have hact : (dropGreyboxes s).active = s.active := by
        cases s with
        | node d t => rfl
      simp only [dropGreyboxesList, overActiveFamilyList, hact,
        abcgGreyboxesList_dropGreyboxes rest, List.append_nil]
      by_cases hs : s.active = true
      · rw [if_pos hs, abcgGreyboxes_dropGreyboxes s]
      · rw [if_neg hs]

end

/-- Erasing grey-boxes leaves the constraint stream unchanged. -/
theorem abcgConstrs_drop (b : Block) :
    abcgConstrs (dropGreyboxes b) = abcgConstrs b := by
  unfold abcgConstrs
  apply overActiveFamily_dropGreyboxes
  intro d
  rfl

/-- Erasing grey-boxes leaves the active constraint walk unchanged. -/
theorem cdoConstrsActive_drop (b : Block) :
    cdoConstrsActive (dropGreyboxes b) = cdoConstrsActive b := by
  unfold cdoConstrsActive
  apply overActiveFamily_dropGreyboxes
  intro d
  rfl

/-- Erasing grey-boxes zeroes the grey-box equality contribution. -/
theorem number_activated_greybox_equalities_drop (b : Block) :
    number_activated_greybox_equalities (dropGreyboxes b) = 0 := by
  unfold number_activated_greybox_equalities activated_greybox_block_set
    greybox_block_set abcgGreyboxes
  rw [abcgGreyboxes_dropGreyboxes b]
  rfl

/-- C5: each activated grey-box node contributes exactly
`len(outputs) + n_equality_constraints()` equalities — erasing all
grey-boxes lowers the total/activated equality-bearing counts by the
grey-box equality contribution and leaves the inequality counts
untouched — and every grey-box input/output variable appears in the
variables set.  The 2-outputs/3-internal-equalities scenario
contributes exactly 5. -/
theorem c5_greybox_equality_contribution :
    (∀ b : Block,
        number_activated_greybox_equalities b
          = Finset.sum (activated_greybox_block_set b)
              (fun g => g.outputs.length + g.nEqCons)
      ∧ number_total_constraints b
          = number_total_constraints (dropGreyboxes b)
              + number_activated_greybox_equalities b
      ∧ number_activated_equalities b
          = number_activated_equalities (dropGreyboxes b)
              + number_activated_greybox_equalities b
      ∧ number_total_inequalities b
          = number_total_inequalities (dropGreyboxes b)
      ∧ number_activated_inequalities b
          = number_activated_inequalities (dropGreyboxes b)
      ∧ greybox_variables b ∪ variables_set b = variables_set b)
    ∧ number_activated_greybox_equalities mGreybox = 5
    ∧ vIn ∈ variables_set mGreybox
    ∧ vOut1 ∈ variables_set mGreybox
    ∧ vOut2 ∈ variables_set mGreybox := by
  have hgb : abcgGreyboxes mGreybox = [gScenario] := by
    unfold mGreybox abcgGreyboxes
    rw [overActiveFamily_leaf]
  have hvars : cdoVarsActive mGreybox = [] := by
    unfold mGreybox cdoVarsActive
    rw [overActiveFamily_leaf]
  have hmem : variables_set mGreybox = ({vIn, vOut1, vOut2} : Finset Var) := by
    unfold variables_set greybox_variables activated_greybox_block_set
      greybox_block_set
    rw [hvars, hgb]
    simp [gScenario, Finset.filter_singleton, Finset.singleton_biUnion,
      List.toFinset_cons, List.toFinset_nil]
    ext y
    simp
    tauto
  refine ⟨?_, ?_, ?_, ?_, ?_⟩
  case refine_2 =>
    unfold number_activated_greybox_equalities activated_greybox_block_set
      greybox_block_set
    rw [hgb]
    simp [gScenario, Finset.filter_singleton, Finset.sum_singleton]
  case refine_3 =>
    rw [hmem]
    simp
  case refine_4 =>
    rw [hmem]
    simp
  case refine_5 =>
    rw [hmem]
    simp
  intro b
  have hc := abcgConstrs_drop b
  have ha := cdoConstrsActive_drop b
  have hg := number_activated_greybox_equalities_drop b
  refine ⟨rfl, ?_, ?_, ?_, ?_, ?_⟩
  · simp [number_total_constraints, hc, hg]
  · simp [number_activated_equalities, activated_equalities_generator, ha, hg]
  · simp [number_total_inequalities, total_inequalities_generator, hc]
  · simp [number_activated_inequalities, activated_inequalities_generator, ha]
  · ext v
    simp only [variables_set, Finset.mem_union, List.mem_toFinset]
    tauto

/-- An `if`/`elif` chain yielding in both branches is the disjunction of
the two conditions. -/
theorem ifTrueElse_eq_or (c d : Bool) :
    (if c = true then true else d) = (c || d) := by
  cases c <;> simp

/-- The source near-bound test agrees pointwise with the spec's rule. -/
theorem nearBoundTest_eq_spec (skipLb skipUb : Bool) (absTol relTol : ℚ)
    (v : Var) :
    nearBoundTest skipLb skipUb absTol relTol v
      = specNearBound skipLb skipUb absTol relTol v := by
  unfold nearBoundTest specNearBound nearBoundsMag specMagnitude
  obtain ⟨i, fx, val, lo, up⟩ := v
  rcases val with _ | x
  · rfl
  · simp only [ifTrueElse_eq_or]

/-- C6: the near-bound variable set is exactly the activated variables
with a value whose distance to a present, non-skipped bound is within
the effective tolerance `max(abs_tol, magnitude * rel_tol)`; the
`[0, 10]`-bounded variable valued `9.9999` is included at the default
tolerances. -/
theorem c6_near_bound_detection :
    (∀ (b : Block) (skipLb skipUb : Bool) (absTol relTol : ℚ),
        variables_near_bounds_set b skipLb skipUb absTol relTol
          = ((cdoVarsActive b).filter
              (specNearBound skipLb skipUb absTol relTol)).toFinset)
    ∧ vNear ∈ variables_near_bounds_set mNear false false
        (1 / 10000) (1 / 10000) := by
  constructor
  · intro b skipLb skipUb absTol relTol
    unfold variables_near_bounds_set
    exact congrArg List.toFinset
      (List.filter_congr
        (fun v _ => nearBoundTest_eq_spec skipLb skipUb absTol relTol v))
  · have hv : cdoVarsActive mNear = [vNear] := by
      unfold mNear cdoVarsActive
      rw [overActiveFamily_leaf]
    unfold variables_near_bounds_set
    rw [hv, List.mem_toFinset, List.mem_filter]
    refine ⟨by simp, ?_⟩
    unfold nearBoundTest nearBoundsMag vNear
    norm_num

/-- C7 refutation: with a constraint aliased twice in the walk (a Pyomo
`Reference`), the raw counts exceed the deduplicated-set cardinalities. -/
theorem c7_counterexample_alias :
    ¬ (number_total_constraints mAlias
          = (total_constraints_set mAlias).card
              + number_activated_greybox_equalities mAlias
        ∧ number_activated_constraints mAlias
          = (activated_constraints_set mAlias).card) := by
  have hstream : abcgConstrs mAlias = [cAlias, cAlias] := by
    unfold mAlias abcgConstrs
    rw [overActiveFamily_leaf]
  have h2 : number_activated_constraints mAlias = 2 := by
    unfold number_activated_constraints activated_constraints_generator
    rw [hstream]
    simp [cAlias]
  have h1 : (activated_constraints_set mAlias).card = 1 := by
    unfold activated_constraints_set activated_constraints_generator
    rw [hstream]
    simp [cAlias]
  intro h
  rw [h.2, h1] at h2
  omega

/-- C7 amended: when the constraint traversal holds no aliased
(duplicate) references, the constraint counts are exactly the set
cardinalities (plus the grey-box contribution for the total), and the
variable count is always a set cardinality. -/
theorem c7_counts_are_cardinalities (b : Block)
    (h : (abcgConstrs b).Nodup) :
    number_total_constraints b
        = (total_constraints_set b).card
            + number_activated_greybox_equalities b
    ∧ number_activated_constraints b = (activated_constraints_set b).card
    ∧ number_variables b = (variables_set b).card := by
  refine ⟨?_, ?_, rfl⟩
  · unfold number_total_constraints total_constraints_set
    rw [List.toFinset_card_of_nodup h]
  · unfold number_activated_constraints activated_constraints_set
      activated_constraints_generator
    rw [List.toFinset_card_of_nodup (h.filter _)]

/-- Witness for C7 amended: the alias-free model. -/
theorem c7_counts_are_cardinalities_witness :
    number_total_constraints mPlain
        = (total_constraints_set mPlain).card
            + number_activated_greybox_equalities mPlain
    ∧ number_activated_constraints mPlain = (activated_constraints_set mPlain).card
    ∧ number_variables mPlain = (variables_set mPlain).card :=
  c7_counts_are_cardinalities mPlain (by
    unfold mPlain abcgConstrs
    rw [overActiveFamily_leaf]
    simp)

/-- C8 refutation: with an unfixed grey-box variable, the unfixed set
misses it (the source generator has no grey-box clause), so fixed and
unfixed do not partition the variables set. -/
theorem c8_counterexample_greybox_unfixed :
    ¬ (unfixed_variables_set mGbUnfixed
          = (variables_set mGbUnfixed).filter (fun v => v.fixed = false)
        ∧ fixed_variables_set mGbUnfixed ∪ unfixed_variables_set mGbUnfixed
          = variables_set mGbUnfixed) := by
  have hvars : cdoVarsActive mGbUnfixed = [] := by
    unfold mGbUnfixed cdoVarsActive
    rw [overActiveFamily_leaf]
  have hgb : abcgGreyboxes mGbUnfixed = [gUnfixed] := by
    unfold mGbUnfixed abcgGreyboxes
    rw [overActiveFamily_leaf]
  have hvs : variables_set mGbUnfixed = {vGbUnfixed} := by
    unfold variables_set greybox_variables activated_greybox_block_set
      greybox_block_set
    rw [hvars, hgb]
    simp [gUnfixed, Finset.filter_singleton, Finset.singleton_biUnion]
  have hus : unfixed_variables_set mGbUnfixed = ∅ := by
    unfold unfixed_variables_set
    rw [hvars]
    simp
  intro h
  have h1 := h.1
  rw [hus, hvs] at h1
  rw [Finset.filter_singleton] at h1
  simp [vGbUnfixed] at h1
  exact (Finset.singleton_ne_empty _) h1.symm

/-- C8 amended: the fixed set is the fixed-filtered variables set
(grey-box variables included); the unfixed set is the unfixed-filtered
ordinary variable walk (grey-box variables omitted); the two are
disjoint and cover the variables set minus the unfixed grey-box-only
variables. -/
theorem c8_fixed_unfixed_classifiers (b : Block) :
    fixed_variables_set b = (variables_set b).filter (fun v => v.fixed = true)
    ∧ unfixed_variables_set b
        = ((cdoVarsActive b).toFinset).filter (fun v => v.fixed = false)
    ∧ fixed_variables_set b ∩ unfixed_variables_set b = ∅
    ∧ fixed_variables_set b ∪ unfixed_variables_set b
        = variables_set b
            \ ((greybox_variables b).filter (fun v => v.fixed = false)
                \ (cdoVarsActive b).toFinset) := by
  refine ⟨?_, ?_, ?_, ?_⟩
  · ext v
    simp only [fixed_variables_set, variables_set, Finset.mem_union,
      Finset.mem_filter, List.mem_toFinset, List.mem_filter]
    tauto
  · ext v
    simp only [unfixed_variables_set, Finset.mem_filter, List.mem_toFinset,
      List.mem_filter, Bool.not_eq_true']
  · ext v
    simp only [fixed_variables_set, unfixed_variables_set, Finset.mem_inter,
      Finset.mem_union, Finset.mem_filter, List.mem_toFinset, List.mem_filter,
      Bool.not_eq_true', Finset.not_mem_empty, iff_false, not_and]
    rcases Bool.eq_false_or_eq_true v.fixed with h | h <;> simp [h]
  · ext v
    simp only [fixed_variables_set, unfixed_variables_set, variables_set,
      Finset.mem_union, Finset.mem_sdiff, Finset.mem_filter,
      List.mem_toFinset, List.mem_filter, Bool.not_eq_true']
    rcases Bool.eq_false_or_eq_true v.fixed with h | h
    · simp [h]
    · simp [h]
      tauto

/-- Variables of the active-grey-box model. -/
theorem mGbActive_variables : variables_set mGbActive = {vGbFrame} := by
  have hvars : cdoVarsActive mGbActive = [] := by
    unfold mGbActive cdoVarsActive
    rw [overActiveFamily_leaf]
  have hgb : abcgGreyboxes mGbActive = [⟨13, true, [vGbFrame], [], 0⟩] := by
    unfold mGbActive abcgGreyboxes
    rw [overActiveFamily_leaf]
  unfold variables_set greybox_variables activated_greybox_block_set
    greybox_block_set
  rw [hvars, hgb]
  simp [Finset.filter_singleton, Finset.singleton_biUnion]

/-- Variables of the deactivated-grey-box model. -/
theorem mGbInactive_variables : variables_set mGbInactive = ∅ := by
  have hvars : cdoVarsActive mGbInactive = [] := by
    unfold mGbInactive cdoVarsActive
    rw [overActiveFamily_leaf]
  have hgb : abcgGreyboxes mGbInactive = [⟨13, false, [vGbFrame], [], 0⟩] := by
    unfold mGbInactive abcgGreyboxes
    rw [overActiveFamily_leaf]
  unfold variables_set greybox_variables activated_greybox_block_set
    greybox_block_set
  rw [hvars, hgb]
  simp [Finset.filter_singleton]

/-- Constraint-referenced variables of the active-grey-box model. -/
theorem mGbActive_constraint_variables :
    variables_in_activated_constraints_set mGbActive = {vGbFrame} := by
  have hc : cdoConstrsActive mGbActive = [] := by
    unfold mGbActive cdoConstrsActive
    rw [overActiveFamily_leaf]
    rfl
  have hgb : abcgGreyboxes mGbActive = [⟨13, true, [vGbFrame], [], 0⟩] := by
    unfold mGbActive abcgGreyboxes
    rw [overActiveFamily_leaf]
  unfold variables_in_activated_constraints_set greybox_variables
    activated_greybox_block_set greybox_block_set
  rw [hc, hgb]
  simp [Finset.filter_singleton, Finset.singleton_biUnion]

/-- Constraint-referenced variables of the deactivated-grey-box model. -/
theorem mGbInactive_constraint_variables :
    variables_in_activated_constraints_set mGbInactive = ∅ := by
  have hc : cdoConstrsActive mGbInactive = [] := by
    unfold mGbInactive cdoConstrsActive
    rw [overActiveFamily_leaf]
    rfl
  have hgb : abcgGreyboxes mGbInactive = [⟨13, false, [vGbFrame], [], 0⟩] := by
    unfold mGbInactive abcgGreyboxes
    rw [overActiveFamily_leaf]
  unfold variables_in_activated_constraints_set greybox_variables
    activated_greybox_block_set greybox_block_set
  rw [hc, hgb]
  simp [Finset.filter_singleton]

/-- C9 refutation: deactivating the grey-box node removes its variable
from the variables set as well, not only from the
variables-in-activated-constraints set. -/
theorem c9_counterexample_deactivation :
    vGbFrame ∈ variables_set mGbActive
    ∧ vGbFrame ∉ variables_in_activated_constraints_set mGbInactive
    ∧ vGbFrame ∉ variables_set mGbInactive := by
  rw [mGbActive_variables, mGbInactive_variables,
    mGbInactive_constraint_variables]
  simp

/-- C9 amended: the variables set always contains the grey-box
variables; deactivating a grey-box node removes its variables from the
variables-in-activated-constraints set and from the variables set
alike, as both draw grey-box variables from activated nodes only. -/
theorem c9_greybox_variable_containment :
    (∀ b : Block, greybox_variables b ∪ variables_set b = variables_set b)
    ∧ variables_set mGbActive = {vGbFrame}
    ∧ variables_in_activated_constraints_set mGbActive = {vGbFrame}
    ∧ variables_in_activated_constraints_set mGbInactive = ∅
    ∧ variables_set mGbInactive = ∅ := by
  refine ⟨?_, mGbActive_variables, mGbActive_constraint_variables,
    mGbInactive_constraint_variables, mGbInactive_variables⟩
  intro b
  ext v
  simp only [variables_set, Finset.mem_union, List.mem_toFinset]
  tauto

/-- C10: a strict violation of a present, non-skipped bound always puts
the variable in the near-bound set, because the signed distance is
negative and the effective tolerance is non-negative. -/
theorem c10_violated_bound_included (b : Block) (v : Var) (x : ℚ)
    (skipLb skipUb : Bool) (absTol relTol : ℚ)
    (habs : 0 ≤ absTol) (hmem : v ∈ cdoVarsActive b) (hval : v.val = some x)
    (hviol : (∃ u, v.ub = some u ∧ skipUb = false ∧ u < x)
        ∨ (∃ l, v.lb = some l ∧ skipLb = false ∧ x < l)) :
    v ∈ variables_near_bounds_set b skipLb skipUb absTol relTol := by
  unfold variables_near_bounds_set
  rw [List.mem_toFinset, List.mem_filter]
  refine ⟨hmem, ?_⟩
  unfold nearBoundTest
  have htol : (0 : ℚ) ≤ max absTol (nearBoundsMag v * relTol) :=
    le_trans habs (le_max_left _ _)
  rcases hviol with ⟨u, hub, hsk, hu⟩ | ⟨l, hlb, hsk, hl⟩
  · have hle : u - x ≤ max absTol (nearBoundsMag v * relTol) := by
      have : u - x < 0 := sub_neg.mpr hu
      linarith
    simp [hval, hub, hsk, hle]
  · have hle : x - l ≤ max absTol (nearBoundsMag v * relTol) := by
      have : x - l < 0 := sub_neg.mpr hl
      linarith
    simp only [hval, hlb, hsk]
    by_cases hub : (match v.ub with
        | some u => !skipUb && decide (u - x ≤ max absTol (nearBoundsMag v * relTol))
        | none => false) = true
    · rw [if_pos hub]
    · rw [if_neg hub]
      simp [hle]

/-- Witness for C10: a variable valued far above its upper bound is
reported near-bound. -/
theorem c10_violated_bound_included_witness :
    vViol ∈ variables_near_bounds_set mViol false false
      (1 / 10000) (1 / 10000) :=
  c10_violated_bound_included mViol vViol 100 false false
    (1 / 10000) (1 / 10000) (by norm_num)
    (by
      unfold mViol cdoVarsActive
      rw [overActiveFamily_leaf]
      simp)
    rfl
    (Or.inl ⟨5, rfl, rfl, by norm_num⟩)

end ModelStatistics
